import Mathlib

/-!
Verification of the PyTrll repository (`src/trello.py`) against its
natural-language specification.

The development shallowly embeds the two engines of the source:

* the keyed chunked concurrent executor (`App.queue` / `App.execute` /
  `App.set_family`), and
* the query grammar of `ModifiedList.__getitem__` (slice-filter form,
  dict-filter form, and dict-plus-trailing-string-keys form).

Modelling conventions:

* A staged call is a `(func, args, kwargs)` triple which the executor treats
  opaquely: it invokes `func(*args, **kwargs)` exactly once and observes the
  returned value or the raised error.  A call is therefore embedded by its
  outcome, `Call := Except Nat Nat` (error code or result value).  Thread
  scheduling cannot change any observable modelled here, because futures are
  collected in submission order (`trello.py` line 253) and each call's
  outcome is fixed.
* `App.__threads` and `App.__api_interval` are not part of the state: the
  thread count does not affect results or their order, and the sleep
  duration is irrelevant — only the *number* of `time.sleep` invocations is
  observable, which `execute` reports in its outcome.
* A Python `dict` is embedded as an insertion-ordered association list with
  unique keys; `lookupKey` is `dict.get`, `setKey` is `dict.__setitem__`,
  `eraseKey` is `dict.pop`.
* Python `None` returns are `Option.none`; raised exceptions are
  `Except.error`.
-/

deriving instance DecidableEq for Except

namespace Trello

/-- A JSON scalar stored in an entity's record (`obj.json` values). -/
inductive Value where
  | str (s : String)
  | num (n : Int)
  | bool (b : Bool)
  | null
  deriving DecidableEq, Repr

/-- An entity's key/value snapshot: a Python `dict` as an insertion-ordered
association list (`obj.json` in `trello.py`). -/
abbrev Record := List (String × Value)

/-- A Trello object (`Board`, `List`, `Card`, ... in `trello.py`): for the
query grammar only its `json` record is relevant. -/
structure Entity where
  json : Record
  deriving DecidableEq, Repr

/-- `dict.get key` on an insertion-ordered association list. -/
def lookupKey (key : String) : List (String × α) → Option α
  | [] => none
  | (k, v) :: rest => if k = key then some v else lookupKey key rest

/-- `dict[key] = v`: replace in place when present, append when absent
(Python dicts keep the position of an existing key). -/
def setKey (key : String) (v : α) : List (String × α) → List (String × α)
  | [] => [(key, v)]
  | (k, w) :: rest => if k = key then (key, v) :: rest else (k, w) :: setKey key v rest

/-- `dict.pop key`: remove the entry for `key`. -/
def eraseKey (key : String) : List (String × α) → List (String × α)
  | [] => []
  | (k, w) :: rest => if k = key then rest else (k, w) :: eraseKey key rest

/-- A staged call `(func, args, kwargs)`, embedded by the outcome of the one
invocation `func(*args, **kwargs)` the executor performs: `.ok v` when the
call returns `v`, `.error e` when it raises error `e`. -/
abbrev Call := Except Nat Nat

/-- The state of an `App` relevant to the executor: the request pool
(`App.__request_pool`, a dict from key to the list of staged calls, never
empty for a present key) and the chunk size (`App.__chunk_size`). -/
structure AppState where
  request_pool : List (String × List Call)
  chunk_size : Nat
  deriving DecidableEq, Repr

/-- `App.queue(key, func, *args, **kwargs)` (`trello.py` lines 219-228):
create the key's list when absent, then append the call. -/
def queue (st : AppState) (key : String) (call : Call) : AppState :=
  { st with
    request_pool :=
      setKey key ((lookupKey key st.request_pool).getD [] ++ [call]) st.request_pool }

/-- Recursion core for `split`.  The `fuel` argument only bounds the
recursion depth (any `fuel ≥ l.length` gives the same value) so that the
definition is structural and computes by kernel reduction; each step peels
one slice `lst[0:c] = a :: as.take (c - 1)` and recurses on
`lst[c:] = as.drop (c - 1)`. -/
def splitFuel (c : Nat) : Nat → List α → List (List α)
  | _, [] => []
  | 0, _ :: _ => []
  | fuel + 1, a :: as => (a :: as.take (c - 1)) :: splitFuel c fuel (as.drop (c - 1))

/-- The inner `split` generator of `App.execute` (`trello.py` lines 234-236):
`lst[i:i+chunk_size]` for `i = 0, chunk_size, 2*chunk_size, ...`.  Python
raises `ValueError` for `chunk_size = 0` (a zero `range` step); that input is
unreachable and outside the claims, which assume `chunk_size ≥ 1`. -/
def split (l : List α) (c : Nat) : List (List α) :=
  splitFuel c l.length l

/-- `[response.result() for response in response_lst]` (`trello.py` line
253): return the values in order, re-raising the first stored exception. -/
def collectResults : List Call → Except Nat (List Nat)
  | [] => .ok []
  | .error e :: _ => .error e
  | .ok v :: rest => (collectResults rest).map (v :: ·)

/-- Everything observable about one `App.execute(key)` invocation. -/
structure ExecOutcome where
  /-- The `App` state after the invocation. -/
  state : AppState
  /-- How many times `time.sleep(self.__api_interval)` ran. -/
  sleeps : Nat
  /-- The calls submitted to worker pools, in submission order. -/
  ran : List Call
  /-- `none` when the method returned Python `None` (missing key, line 239);
  otherwise the returned list or the first re-raised call error. -/
  result : Option (Except Nat (List Nat))
  deriving DecidableEq, Repr

/-- `App.execute(key)` (`trello.py` lines 230-253).  A missing key returns
`None` (lines 238-239).  Otherwise the staged list is split into chunks
(line 241); each chunk is submitted to a `ThreadPoolExecutor` whose scope
waits for the chunk, futures being appended to `response_lst` in submission
order (lines 244-247), and `time.sleep` runs once per chunk iteration
(line 249); the key is popped (line 251); finally the futures' results are
collected in list order, re-raising the first captured error (line 253). -/
def execute (st : AppState) (key : String) : ExecOutcome :=
  match lookupKey key st.request_pool with
  | none => ⟨st, 0, [], none⟩
  | some calls =>
    let pool_lst := split calls st.chunk_size
    let response_lst := pool_lst.flatten
    { state := { st with request_pool := eraseKey key st.request_pool }
      sleeps := pool_lst.length
      ran := response_lst
      result := some (collectResults response_lst) }

/-- Errors `App.set_family` can raise: the reserved-key `ValueError`
(`trello.py` line 164) or a call error propagated out of `execute`. -/
inductive FamilyError where
  | reservedKey
  | remote (e : Nat)
  deriving DecidableEq, Repr

/-- `App.set_family(obj)` (`trello.py` lines 158-184).  Raise `ValueError`
when `f'{obj.id}__family__'` is already a key of the request pool (lines
163-164); otherwise queue `obj.get_self` and the child-listing call and
execute (lines 171-174), then queue `get_self` for each discovered child and
execute again (lines 181-184).  The remote calls are opaque to the engine,
so they enter as parameters: `get_self` and `fetch_children` are the two
phase-one calls, and `childGetSelfs` stands for the `get_self` calls of the
children discovered by phase one (a side effect on the objects, outside this
state).  Returns the final state; the match arm for a `none` execute result
is unreachable, since the key was queued just before each execute. -/
def set_family (st : AppState) (objId : String)
    (get_self fetch_children : Call) (childGetSelfs : List Call) :
    Except FamilyError AppState :=
  let fkey := objId ++ "__family__"
  if (lookupKey fkey st.request_pool).isSome then
    .error .reservedKey
  else
    let st1 := queue (queue st fkey get_self) fkey fetch_children
    let out1 := execute st1 fkey
    match out1.result with
    | none => .error .reservedKey
    | some (.error e) => .error (.remote e)
    | some (.ok _) =>
      let st2 := childGetSelfs.foldl (fun s c => queue s fkey c) out1.state
      let out2 := execute st2 fkey
      match out2.result with
      | none => .ok out2.state
      | some (.error e) => .error (.remote e)
      | some (.ok _) => .ok out2.state

/-- Errors the query accessor `ModifiedList.__getitem__` can raise:
`TypeError('Keys must be associated with lists.')` (`trello.py` lines
783-784 and 833-835) and Python's `KeyError` from `obj.json[key]` on a
missing field. -/
inductive QueryError where
  | typeError
  | keyError
  deriving DecidableEq, Repr

/-- The value of one query accessor invocation.  Each constructor records
the Python return shape: a raw entity, a list of raw entities, a bare
projected value, one (partial) json record, or a list of (partial) json
records. -/
inductive QueryResult where
  | entity (e : Entity)
  | entities (es : List Entity)
  | value (v : Value)
  | record (r : Record)
  | records (rs : List Record)
  deriving DecidableEq, Repr

/-- The `len(result) == 1` unwrapping of the entity-filter forms
(`trello.py` lines 769-770 and 793-795). -/
def unwrapEntities : List Entity → QueryResult
  | [e] => .entity e
  | es => .entities es

/-- The `stop` of a filter slice `self[key:val]`: `val` may be any object;
the code wraps it into `[val]` unless it is a non-string iterable
(`trello.py` lines 764-765).  `.one` is a scalar (string, number, ...),
`.many` a list. -/
inductive SliceStop where
  | one (v : Value)
  | many (vs : List Value)
  deriving DecidableEq, Repr

/-- `if not hasattr(val, '__iter__') or type(val) is str: val = [val]`
(`trello.py` lines 764-765). -/
def normSliceStop : SliceStop → List Value
  | .one v => [v]
  | .many vs => vs

/-- `[obj for obj in self if obj[key] in val]` (`trello.py` line 767);
`obj[key]` is `BaseObject.__getitem__` with a string, i.e. `obj.json[key]`
(line 305), raising `KeyError` when the field is absent. -/
def sliceFilter (key : String) (vals : List Value) :
    List Entity → Except QueryError (List Entity)
  | [] => .ok []
  | obj :: rest =>
    match lookupKey key obj.json with
    | none => .error .keyError
    | some v =>
      if v ∈ vals then (sliceFilter key vals rest).map (obj :: ·)
      else sliceFilter key vals rest

/-- The slice form of `ModifiedList.__getitem__` (`trello.py` lines
756-772) with a string `start` (the field name).  The `isinstance(key, int)
and isinstance(val, int)` branch (lines 760-761) concerns the distinct
positional form, is skipped for a string field, and is not modelled. -/
def getSlice (ml : List Entity) (key : String) (stop : SliceStop) :
    Except QueryError QueryResult :=
  (sliceFilter key (normSliceStop stop) ml).map unwrapEntities

/-- The value attached to one field of a filter mapping: a bare string, a
list, or anything else (e.g. an integer, embedded through `Value`). -/
inductive FilterVal where
  | str (s : String)
  | list (vs : List Value)
  | other (v : Value)
  deriving DecidableEq, Repr

/-- The per-value normalisation/validation of the filter loops
(`trello.py` lines 781-784 and 832-835): a bare string becomes a one-element
list, then anything that is not a list raises
`TypeError('Keys must be associated with lists.')`. -/
def normFilterVal : FilterVal → Except QueryError (List Value)
  | .str s => .ok [.str s]
  | .list vs => .ok vs
  | .other _ => .error .typeError

/-- A filter mapping: a Python dict in iteration (= insertion) order. -/
abbrev Filter := List (String × FilterVal)

/-- The inner `for key, values in entry.items()` loop of the dict-filter
forms (`trello.py` lines 780-788 and 831-839): normalise/validate the value,
then test `obj.json[key] in values`, breaking at the first failed field. -/
def matchEntity (obj : Entity) : Filter → Except QueryError Bool
  | [] => .ok true
  | (key, values) :: rest =>
    match normFilterVal values with
    | .error e => .error e
    | .ok vals =>
      match lookupKey key obj.json with
      | none => .error .keyError
      | some v => if v ∈ vals then matchEntity obj rest else .ok false

/-- The outer `for obj in self` loop of the dict form (`trello.py` lines
777-791), appending the matching objects themselves (`results.append(obj)`,
line 791). -/
def dictFilter (filt : Filter) : List Entity → Except QueryError (List Entity)
  | [] => .ok []
  | obj :: rest =>
    match matchEntity obj filt with
    | .error e => .error e
    | .ok true => (dictFilter filt rest).map (obj :: ·)
    | .ok false => dictFilter filt rest

/-- The dict form of `ModifiedList.__getitem__` (`trello.py` lines
774-795): filter, then unwrap a single match. -/
def getDict (ml : List Entity) (filt : Filter) : Except QueryError QueryResult :=
  (dictFilter filt ml).map unwrapEntities

/-- The outer loop of the dict-plus-trailing-strings form (`trello.py`
lines 828-842), appending the matching objects' jsons
(`results.append(obj.json)`, line 842). -/
def dictFilterJson (filt : Filter) : List Entity → Except QueryError (List Record)
  | [] => .ok []
  | obj :: rest =>
    match matchEntity obj filt with
    | .error e => .error e
    | .ok true => (dictFilterJson filt rest).map (obj.json :: ·)
    | .ok false => dictFilterJson filt rest

/-- `{key: val for key, val in js.items() if key in entry[1:]}`
(`trello.py` lines 844 and 850): restrict a json to the requested keys,
keeping the json's own key order. -/
def restrict (js : Record) (keys : List String) : Record :=
  js.filter (fun kv => kv.1 ∈ keys)

/-- The dict-plus-trailing-string-keys form of `ModifiedList.__getitem__`
(`trello.py` lines 824-850): filter collecting jsons, restrict each json to
the trailing keys (line 844); with exactly one match and exactly one
trailing key return the bare value `results[0][entry[-1]]` (line 848,
`KeyError` when absent), with one match and several keys return the partial
record (line 849), otherwise restrict once more and return the list
(line 850). -/
def getDictStrings (ml : List Entity) (filt : Filter) (keys : List String) :
    Except QueryError QueryResult :=
  match dictFilterJson filt ml with
  | .error e => .error e
  | .ok jss =>
    let results := jss.map (fun js => restrict js keys)
    match results, keys with
    | [r], [k] =>
      match lookupKey k r with
      | some v => .ok (.value v)
      | none => .error .keyError
    | [r], _ => .ok (.record r)
    | rs, _ => .ok (.records (rs.map (fun js => restrict js keys)))

/-- The value a successful call returns (`future.result()` for a call that
did not raise). -/
def resultValue : Call → Nat
  | .ok v => v
  | .error _ => 0

/-- Does an `execute` outcome model a raised exception (rather than a
returned list or Python `None`)? -/
def raisedError : Option (Except Nat (List Nat)) → Bool
  | some (.error _) => true
  | _ => false

theorem splitFuel_flatten (c : Nat) (fuel : Nat) :
    ∀ l : List α, l.length ≤ fuel → (splitFuel c fuel l).flatten = l := by
  induction fuel with
  | zero =>
    intro l hl
    have hnil : l = [] := List.length_eq_zero.mp (Nat.le_zero.mp hl)
    subst hnil
    rfl
  | succ n ih =>
    intro l hl
    match l with
    | [] => rfl
    | a :: as =>
      rw [splitFuel]
      simp only [List.flatten_cons, List.cons_append, List.cons.injEq, true_and]
      rw [ih (as.drop (c - 1)) (by simp only [List.length_drop]; simp only [List.length_cons] at hl; omega)]
      exact List.take_append_drop _ _

/-- Chunking is flattening-invisible: the chunks of `split` concatenate
back to the original list. -/
theorem split_flatten (c : Nat) (l : List α) : (split l c).flatten = l :=
  splitFuel_flatten c l.length l (Nat.le_refl _)

theorem splitFuel_length (c : Nat) (hc : 1 ≤ c) (fuel : Nat) :
    ∀ l : List α, l.length ≤ fuel →
      (splitFuel c fuel l).length = (l.length + c - 1) / c := by
  induction fuel with
  | zero =>
    intro l hl
    have hnil : l = [] := List.length_eq_zero.mp (Nat.le_zero.mp hl)
    subst hnil
    simp [splitFuel]
    symm
    exact Nat.div_eq_of_lt (by omega)
  | succ n ih =>
    intro l hl
    match l with
    | [] =>
      simp [splitFuel]
      symm
      exact Nat.div_eq_of_lt (by omega)
    | a :: as =>
      rw [splitFuel]
      simp only [List.length_cons]
      rw [ih (as.drop (c - 1)) (by simp only [List.length_drop]; simp only [List.length_cons] at hl; omega)]
      simp only [List.length_drop]
      rcases le_or_lt (c - 1) as.length with h | h
      · have h1 : as.length - (c - 1) + c - 1 = as.length := by omega
        have h2 : as.length + 1 + c - 1 = as.length + c := by omega
        rw [h1, h2, Nat.add_div_right _ (by omega)]
      · have h1 : as.length - (c - 1) + c - 1 = c - 1 := by omega
        have h2 : as.length + 1 + c - 1 = as.length + c := by omega
        rw [h1, h2, Nat.add_div_right _ (by omega),
          Nat.div_eq_of_lt (show c - 1 < c by omega),
          Nat.div_eq_of_lt (show as.length < c by omega)]

/-- The number of chunks `split` makes is `⌈length / c⌉`, written with
natural division as `(length + c - 1) / c`. -/
theorem split_length (c : Nat) (hc : 1 ≤ c) (l : List α) :
    (split l c).length = (l.length + c - 1) / c :=
  splitFuel_length c hc l.length l (Nat.le_refl _)

theorem collectResults_ok (l : List Call) (h : ∀ x ∈ l, ∃ v, x = Except.ok v) :
    collectResults l = .ok (l.map resultValue) := by
  induction l with
  | nil => rfl
  | cons x rest ih =>
    obtain ⟨v, rfl⟩ := h x (List.mem_cons_self x rest)
    rw [show collectResults (Except.ok v :: rest) = (collectResults rest).map (v :: ·) from rfl,
      ih (fun y hy => h y (List.mem_cons_of_mem _ hy))]
    rfl

theorem collectResults_error (l : List Call) (i e : Nat)
    (hi : l[i]? = some (Except.error e))
    (hj : ∀ j, j < i → ∃ v, l[j]? = some (Except.ok v)) :
    collectResults l = .error e := by
  induction l generalizing i with
  | nil => simp at hi
  | cons x rest ih =>
    match i with
    | 0 =>
      simp at hi
      rw [hi]
      rfl
    | i + 1 =>
      obtain ⟨v, hv⟩ := hj 0 (Nat.succ_pos i)
      simp at hv
      rw [hv]
      rw [show collectResults (Except.ok v :: rest) = (collectResults rest).map (v :: ·) from rfl,
        ih i (by simpa using hi) (fun j hj2 => by simpa using hj (j + 1) (by omega))]
      rfl

theorem lookupKey_eq_none_of_not_mem (key : String) (l : List (String × α))
    (h : key ∉ l.map Prod.fst) : lookupKey key l = none := by
  induction l with
  | nil => rfl
  | cons p rest ih =>
    obtain ⟨k, v⟩ := p
    rw [List.map_cons] at h
    rw [lookupKey, if_neg (fun hk => h (by rw [← hk]; exact List.mem_cons_self _ _))]
    exact ih (fun hm => h (List.mem_cons_of_mem _ hm))

theorem lookupKey_eraseKey (key : String) (l : List (String × α))
    (h : (l.map Prod.fst).Nodup) : lookupKey key (eraseKey key l) = none := by
  induction l with
  | nil => rfl
  | cons p rest ih =>
    obtain ⟨k, v⟩ := p
    simp only [List.map_cons, List.nodup_cons] at h
    rw [eraseKey]
    by_cases hk : k = key
    · subst hk
      rw [if_pos rfl]
      exact lookupKey_eq_none_of_not_mem k rest h.1
    · rw [if_neg hk, lookupKey, if_neg hk]
      exact ih h.2

theorem unwrapEntities_length_ne_one (es : List Entity) (h : es.length ≠ 1) :
    unwrapEntities es = .entities es := by
  match es with
  | [] => rfl
  | [e] => simp at h
  | e1 :: e2 :: rest => rfl

theorem restrict_restrict (js : Record) (keys : List String) :
    restrict (restrict js keys) keys = restrict js keys := by
  simp [restrict, List.filter_filter]

/-- The explicit normalisation a filter mapping undergoes: a bare-string
value becomes the one-element list the code wraps it into; other values are
untouched. -/
def normPair : String × FilterVal → String × FilterVal
  | (k, .str s) => (k, .list [.str s])
  | p => p

theorem matchEntity_normPair (obj : Entity) (filt : Filter) :
    matchEntity obj (filt.map normPair) = matchEntity obj filt := by
  induction filt with
  | nil => rfl
  | cons p rest ih =>
    obtain ⟨k, fv⟩ := p
    match fv with
    | .str s =>
      simp only [List.map_cons, normPair, matchEntity, normFilterVal]
      cases lookupKey k obj.json with
      | none => rfl
      | some v => by_cases hv : v ∈ [Value.str s] <;> simp [hv, ih]
    | .list vs =>
      simp only [List.map_cons, normPair, matchEntity, normFilterVal]
      cases lookupKey k obj.json with
      | none => rfl
      | some v => by_cases hv : v ∈ vs <;> simp [hv, ih]
    | .other v =>
      simp only [List.map_cons, normPair, matchEntity, normFilterVal]

theorem dictFilter_normPair (ml : List Entity) (filt : Filter) :
    dictFilter (filt.map normPair) ml = dictFilter filt ml := by
  induction ml with
  | nil => rfl
  | cons obj rest ih =>
    rw [dictFilter, dictFilter, matchEntity_normPair, ih]

/-- With a non-empty collection, a filter whose first entry carries a
non-string non-list value raises the `TypeError` at the first object. -/
theorem dictFilter_other_head (obj : Entity) (rest : List Entity)
    (k : String) (v : Value) (filt : Filter) :
    dictFilter ((k, FilterVal.other v) :: filt) (obj :: rest) = .error .typeError := rfl

/-- An empty filter mapping accepts every entity: the inner loop body never
runs, so `appnd` stays `True`. -/
theorem dictFilter_nil (ml : List Entity) : dictFilter [] ml = .ok ml := by
  induction ml with
  | nil => rfl
  | cons obj rest ih =>
    rw [dictFilter]
    rw [show matchEntity obj [] = .ok true from rfl, ih]
    rfl

/-- The dict filter yields a subsequence of the collection: its elements
are the collection's own entity objects, in original order. -/
theorem dictFilter_sublist (filt : Filter) (ml es : List Entity)
    (h : dictFilter filt ml = .ok es) : es.Sublist ml := by
  induction ml generalizing es with
  | nil =>
    rw [dictFilter] at h
    cases h
    exact List.Sublist.refl _
  | cons obj rest ih =>
    rw [dictFilter] at h
    cases hm : matchEntity obj filt with
    | error e => rw [hm] at h; cases h
    | ok b =>
      rw [hm] at h
      cases b with
      | true =>
        cases hd : dictFilter filt rest with
        | error e => rw [hd] at h; cases h
        | ok es' =>
          rw [hd] at h
          cases h
          exact List.Sublist.cons₂ obj (ih es' hd)
      | false => exact List.Sublist.cons obj (ih es h)

theorem execute_of_lookup_none (st : AppState) (key : String)
    (h : lookupKey key st.request_pool = none) : execute st key = ⟨st, 0, [], none⟩ := by
  simp [execute, h]

theorem execute_state_of_some (st : AppState) (key : String) (calls : List Call)
    (h : lookupKey key st.request_pool = some calls) :
    (execute st key).state = { st with request_pool := eraseKey key st.request_pool } := by
  simp [execute, h]

theorem execute_sleeps_of_some (st : AppState) (key : String) (calls : List Call)
    (h : lookupKey key st.request_pool = some calls) :
    (execute st key).sleeps = (split calls st.chunk_size).length := by
  simp [execute, h]

theorem execute_ran_of_some (st : AppState) (key : String) (calls : List Call)
    (h : lookupKey key st.request_pool = some calls) :
    (execute st key).ran = calls := by
  simp [execute, h, split_flatten]

theorem execute_result_of_some (st : AppState) (key : String) (calls : List Call)
    (h : lookupKey key st.request_pool = some calls) :
    (execute st key).result = some (collectResults calls) := by
  simp [execute, h, split_flatten]

/-- Sample states and entities used by witnesses and counterexamples. -/
def entA : Entity := ⟨[("id", .str "a"), ("status", .str "todo"), ("name", .str "A")]⟩

def entB : Entity := ⟨[("id", .str "b"), ("status", .str "open"), ("name", .str "B")]⟩

def entC : Entity := ⟨[("id", .str "c"), ("status", .str "done"), ("name", .str "C")]⟩

def entD : Entity := ⟨[("id", .str "d"), ("status", .str "closed"), ("name", .str "D")]⟩

def entE : Entity := ⟨[("id", .str "e"), ("status", .str "archived"), ("name", .str "E")]⟩

/-- A five-entity collection of which exactly `entB` and `entD` have status
`open` or `closed`. -/
def sample5 : List Entity := [entA, entB, entC, entD, entE]

/-- C1 (amended: N ≥ 1, i.e. the key is present in the request pool — a key
staged zero times is absent and `execute` returns `None`, see C3 — and every
call succeeds): executing the key returns a list of exactly N results, the
i-th being the result of the i-th enqueued call, in original enqueue order;
chunk partitioning is invisible in the output ordering. -/
theorem execute_returns_enqueue_order (st : AppState) (key : String) (calls : List Call)
    (hc : 1 ≤ st.chunk_size)
    (h : lookupKey key st.request_pool = some calls)
    (hok : ∀ x ∈ calls, ∃ v, x = Except.ok v) :
    (execute st key).result = some (Except.ok (calls.map resultValue)) ∧
    (calls.map resultValue).length = calls.length ∧
    ∀ (i : Nat) (v : Nat),
      calls[i]? = some (Except.ok v) → (calls.map resultValue)[i]? = some v := by
  refine ⟨?_, List.length_map _ _, ?_⟩
  · rw [execute_result_of_some st key calls h, collectResults_ok calls hok]
  · intro i v hv
    rw [List.getElem?_map, hv]
    rfl

/-- Witness for C1: three staged calls with chunk size 2 come back as the
three results in enqueue order. -/
theorem execute_returns_enqueue_order_witness :
    (execute ⟨[("k", [Except.ok 5, Except.ok 7, Except.ok 9])], 2⟩ "k").result =
      some (Except.ok [5, 7, 9]) :=
  (execute_returns_enqueue_order ⟨[("k", [Except.ok 5, Except.ok 7, Except.ok 9])], 2⟩ "k"
      [Except.ok 5, Except.ok 7, Except.ok 9] (by decide) (by decide)
      (by intro x hx; simp at hx; rcases hx with rfl | rfl | rfl <;> exact ⟨_, rfl⟩)).1

/-- Counterexample to C1 as stated: for N = 0 (a key never staged), the code
returns Python `None`, not the empty list the claim's `N ≥ 0` demands. -/
theorem execute_never_staged_key_no_empty_list :
    (execute ⟨[], 30⟩ "k").result ≠ some (Except.ok []) := by decide

/-- C2 (amended): for chunk size C ≥ 1 and N staged calls the executor forms
exactly `⌈N/C⌉` chunks, but invokes the pacing sleep exactly `⌈N/C⌉` times —
once after every chunk, including the final one (`time.sleep` sits inside
the chunk loop, `trello.py` line 249). -/
theorem execute_chunks_and_sleeps (st : AppState) (key : String) (calls : List Call)
    (hc : 1 ≤ st.chunk_size)
    (h : lookupKey key st.request_pool = some calls) :
    (split calls st.chunk_size).length = (calls.length + st.chunk_size - 1) / st.chunk_size ∧
    (execute st key).sleeps = (calls.length + st.chunk_size - 1) / st.chunk_size := by
  refine ⟨split_length _ hc _, ?_⟩
  rw [execute_sleeps_of_some st key calls h, split_length _ hc _]

/-- Witness for C2: three calls with chunk size 2 give `⌈3/2⌉ = 2` chunks
and 2 sleeps. -/
theorem execute_chunks_and_sleeps_witness :
    (execute ⟨[("k", [Except.ok 1, Except.ok 2, Except.ok 3])], 2⟩ "k").sleeps = (3 + 2 - 1) / 2 :=
  (execute_chunks_and_sleeps ⟨[("k", [Except.ok 1, Except.ok 2, Except.ok 3])], 2⟩ "k"
      [Except.ok 1, Except.ok 2, Except.ok 3] (by decide) (by decide)).2

/-- Counterexample to C2 as stated: one call with chunk size 30 is one
chunk, and the code sleeps once after it — not the claimed
`⌈1/30⌉ − 1 = 0` times. -/
theorem execute_sleeps_after_final_chunk :
    (execute ⟨[("k", [Except.ok 7])], 30⟩ "k").sleeps ≠ (1 + 30 - 1) / 30 - 1 := by decide

/-- C3 (amended): executing a key with no staged entries — never staged or
already drained — returns Python `None` silently (`trello.py` lines
238-239): no exception, no state change, no calls run, no sleeps. -/
theorem execute_missing_key_returns_none (st : AppState) (key : String)
    (h : lookupKey key st.request_pool = none) :
    execute st key = ⟨st, 0, [], none⟩ :=
  execute_of_lookup_none st key h

/-- Witness for C3: executing a key that was never staged leaves the state
untouched and produces no result. -/
theorem execute_missing_key_returns_none_witness :
    execute ⟨[("other", [Except.ok 1])], 30⟩ "k" =
      ⟨⟨[("other", [Except.ok 1])], 30⟩, 0, [], none⟩ :=
  execute_missing_key_returns_none ⟨[("other", [Except.ok 1])], 30⟩ "k" (by decide)

/-- Counterexample to C3 as stated: on a missing key `execute` raises
nothing — it returns `None` (`result = none`), not a
`QueueNotFoundError`-kind error. -/
theorem execute_missing_key_not_error :
    raisedError (execute ⟨[], 30⟩ "k").result = false := by decide

/-- C4: if a staged call raises, every staged call is still attempted (all
chunks are submitted and awaited before results are read), each failure is
captured in its future, and the first captured failure in enqueue order is
what propagates to the caller. -/
theorem execute_first_error_after_all_attempted (st : AppState) (key : String)
    (calls : List Call) (i e : Nat)
    (hc : 1 ≤ st.chunk_size)
    (h : lookupKey key st.request_pool = some calls)
    (hi : calls[i]? = some (Except.error e))
    (hj : ∀ j, j < i → ∃ v, calls[j]? = some (Except.ok v)) :
    (execute st key).ran = calls ∧ (execute st key).result = some (Except.error e) := by
  refine ⟨execute_ran_of_some st key calls h, ?_⟩
  rw [execute_result_of_some st key calls h, collectResults_error calls i e hi hj]

/-- Witness for C4: with calls `[ok 1, error 7, ok 2]` and chunk size 2 all
three calls run and the error `7` is the propagated failure. -/
theorem execute_first_error_after_all_attempted_witness :
    (execute ⟨[("k", [Except.ok 1, Except.error 7, Except.ok 2])], 2⟩ "k").result =
      some (Except.error 7) :=
  (execute_first_error_after_all_attempted
      ⟨[("k", [Except.ok 1, Except.error 7, Except.ok 2])], 2⟩ "k"
      [Except.ok 1, Except.error 7, Except.ok 2] 1 7 (by decide) (by decide) (by decide)
      (by
        intro j hj
        have hj0 : j = 0 := by omega
        subst hj0
        exact ⟨1, by decide⟩)).2

/-- C8: `set_family` refuses to start — raising the reserved-key
`ValueError` before staging or executing anything — whenever the
`{obj.id}__family__` key is already populated in the request pool. -/
theorem set_family_reserved_key (st : AppState) (objId : String)
    (g f : Call) (cs : List Call)
    (h : (lookupKey (objId ++ "__family__") st.request_pool).isSome) :
    set_family st objId g f cs = .error .reservedKey := by
  simp [set_family, h]

/-- Witness for C8: a pool already holding `x__family__` makes
`set_family` fail with the reserved-key error. -/
theorem set_family_reserved_key_witness :
    set_family ⟨[("x__family__", [Except.ok 0])], 30⟩ "x" (Except.ok 1) (Except.ok 2) [] =
      .error .reservedKey :=
  set_family_reserved_key ⟨[("x__family__", [Except.ok 0])], 30⟩ "x"
    (Except.ok 1) (Except.ok 2) [] (by decide)

/-- C10: executing a present key removes it from the request pool
unconditionally — the pop (`trello.py` line 251) precedes result
collection — so even when a staged call failed the key is consumed: after
the run the key is gone and a repeat execution runs no call and returns
`None`. -/
theorem execute_consumes_key (st : AppState) (key : String) (calls : List Call)
    (hnd : (st.request_pool.map Prod.fst).Nodup)
    (h : lookupKey key st.request_pool = some calls) :
    (execute st key).state.request_pool = eraseKey key st.request_pool ∧
    lookupKey key (execute st key).state.request_pool = none ∧
    execute (execute st key).state key = ⟨(execute st key).state, 0, [], none⟩ := by
  have hs : (execute st key).state.request_pool = eraseKey key st.request_pool := by
    rw [execute_state_of_some st key calls h]
  have hl : lookupKey key (execute st key).state.request_pool = none := by
    rw [hs]
    exact lookupKey_eraseKey key _ hnd
  exact ⟨hs, hl, execute_of_lookup_none _ key hl⟩

/-- Witness for C10: after executing key `"k"` whose only call failed, the
key is gone from the pool. -/
theorem execute_consumes_key_witness :
    lookupKey "k"
        (execute ⟨[("k", [Except.error 7]), ("m", [Except.ok 1])], 30⟩ "k").state.request_pool =
      none :=
  (execute_consumes_key ⟨[("k", [Except.error 7]), ("m", [Except.ok 1])], 30⟩ "k"
      [Except.error 7] (by decide) (by decide)).2.1

/-- C5: every filter-producing query form — the slice form, the
field-to-accepted-values mapping form, and the mapping-plus-trailing-keys
form — unwraps an exactly-one-element result (the bare entity, the bare
projected value, or the bare partial record) and returns a sequence for
zero or two-or-more matches. -/
theorem getitem_single_match_unwrapped :
    (∀ (ml : List Entity) (key : String) (stp : SliceStop) (e : Entity),
      sliceFilter key (normSliceStop stp) ml = .ok [e] →
      getSlice ml key stp = .ok (.entity e)) ∧
    (∀ (ml : List Entity) (key : String) (stp : SliceStop) (es : List Entity),
      sliceFilter key (normSliceStop stp) ml = .ok es → es.length ≠ 1 →
      getSlice ml key stp = .ok (.entities es)) ∧
    (∀ (ml : List Entity) (filt : Filter) (e : Entity),
      dictFilter filt ml = .ok [e] → getDict ml filt = .ok (.entity e)) ∧
    (∀ (ml : List Entity) (filt : Filter) (es : List Entity),
      dictFilter filt ml = .ok es → es.length ≠ 1 →
      getDict ml filt = .ok (.entities es)) ∧
    (∀ (ml : List Entity) (filt : Filter) (k : String) (js : Record) (v : Value),
      dictFilterJson filt ml = .ok [js] → lookupKey k (restrict js [k]) = some v →
      getDictStrings ml filt [k] = .ok (.value v)) ∧
    (∀ (ml : List Entity) (filt : Filter) (keys : List String) (js : Record),
      dictFilterJson filt ml = .ok [js] → keys.length ≠ 1 →
      getDictStrings ml filt keys = .ok (.record (restrict js keys))) ∧
    (∀ (ml : List Entity) (filt : Filter) (keys : List String) (jss : List Record),
      dictFilterJson filt ml = .ok jss → jss.length ≠ 1 →
      getDictStrings ml filt keys = .ok (.records (jss.map (fun js => restrict js keys)))) := by
  refine ⟨?_, ?_, ?_, ?_, ?_, ?_, ?_⟩
  · intro ml key stp e h
    rw [getSlice, h]
    rfl
  · intro ml key stp es h h1
    rw [getSlice, h]
    simp [Except.map, unwrapEntities_length_ne_one es h1]
  · intro ml filt e h
    rw [getDict, h]
    rfl
  · intro ml filt es h h1
    rw [getDict, h]
    simp [Except.map, unwrapEntities_length_ne_one es h1]
  · intro ml filt k js v h hv
    simp only [getDictStrings, h, List.map_cons, List.map_nil]
    rw [hv]
  · intro ml filt keys js h h1
    match keys with
    | [] => simp only [getDictStrings, h, List.map_cons, List.map_nil]
    | [k] => simp at h1
    | k1 :: k2 :: ks => simp only [getDictStrings, h, List.map_cons, List.map_nil]
  · intro ml filt keys jss h h1
    match jss with
    | [] => simp only [getDictStrings, h, List.map_nil]
    | [js] => simp at h1
    | j1 :: j2 :: rest =>
      simp only [getDictStrings, h, List.map_cons]
      simp [List.map_map, Function.comp_def, restrict_restrict]

/-- Witness for C5: a single slice match gives the bare entity, a
two-element dict match gives a sequence, and a single
mapping-plus-trailing-key match gives the bare projected value. -/
theorem getitem_single_match_unwrapped_witness :
    getSlice [entA, entB, entC] "name" (.one (Value.str "B")) = .ok (.entity entB) ∧
    getDict sample5 [("status", FilterVal.list [Value.str "open", Value.str "closed"])] =
      .ok (.entities [entB, entD]) ∧
    getDictStrings [entA, entB, entC] [("status", FilterVal.list [Value.str "todo"])] ["name"] =
      .ok (.value (Value.str "A")) :=
  ⟨getitem_single_match_unwrapped.1 [entA, entB, entC] "name" (.one (Value.str "B")) entB
      (by decide),
   getitem_single_match_unwrapped.2.2.2.1 sample5
      [("status", FilterVal.list [Value.str "open", Value.str "closed"])] [entB, entD]
      (by decide) (by decide),
   getitem_single_match_unwrapped.2.2.2.2.1 [entA, entB, entC]
      [("status", FilterVal.list [Value.str "todo"])] "name" entA.json (Value.str "A")
      (by decide) (by decide)⟩

/-- C6 (amended): the dict-filter form with two or more matches returns a
sequence of the matching entity objects themselves (a subsequence of the
collection) — not their unwrapped `json` records
(`results.append(obj)`, `trello.py` line 791). -/
theorem dict_filter_returns_raw_entities (ml : List Entity) (filt : Filter)
    (es : List Entity)
    (h : dictFilter filt ml = .ok es) (h2 : 2 ≤ es.length) :
    getDict ml filt = .ok (.entities es) ∧ es.Sublist ml := by
  refine ⟨?_, dictFilter_sublist filt ml es h⟩
  rw [getDict, h]
  simp [Except.map, unwrapEntities_length_ne_one es (by omega)]

/-- Witness for C6: on the five-entity sample exactly `entB` and `entD`
match and come back as raw entities. -/
theorem dict_filter_returns_raw_entities_witness :
    getDict sample5 [("status", FilterVal.list [Value.str "open", Value.str "closed"])] =
      .ok (.entities [entB, entD]) :=
  (dict_filter_returns_raw_entities sample5
      [("status", FilterVal.list [Value.str "open", Value.str "closed"])] [entB, entD]
      (by decide) (by decide)).1

/-- Counterexample to C6 as stated: on the five-entity sample with exactly
two matches the result holds the raw entities, not the claimed unwrapped
`json` records. -/
theorem dict_filter_not_records :
    getDict sample5 [("status", FilterVal.list [Value.str "open", Value.str "closed"])] ≠
      .ok (.records [entB.json, entD.json]) ∧
    getDict sample5 [("status", FilterVal.list [Value.str "open", Value.str "closed"])] =
      .ok (.entities [entB, entD]) := by
  constructor
  · decide
  · decide

/-- C7 (amended): a bare-string filter value is auto-normalised to a
one-element list (replacing it by that list never changes the query), and a
value that is neither a string nor a list raises the `TypeError` when
matching reaches it — in particular whenever it is the mapping's first
entry and the collection is non-empty; on an empty collection the loop body
never runs and no error is raised. -/
theorem filter_value_normalization_and_typeerror :
    (∀ (ml : List Entity) (filt : Filter),
      getDict ml (filt.map normPair) = getDict ml filt) ∧
    (∀ (ml : List Entity) (k : String) (v : Value) (filt : Filter), ml ≠ [] →
      getDict ml ((k, FilterVal.other v) :: filt) = .error .typeError) := by
  constructor
  · intro ml filt
    rw [getDict, getDict, dictFilter_normPair]
  · intro ml k v filt hml
    match ml with
    | [] => exact absurd rfl hml
    | obj :: rest =>
      rw [getDict, dictFilter_other_head]
      rfl

/-- Witness for C7: a bare-string value filters like its one-element list,
and an integer value on a non-empty collection raises the `TypeError`. -/
theorem filter_value_normalization_and_typeerror_witness :
    getDict [entA] [("status", FilterVal.list [Value.str "todo"])] =
      getDict [entA] [("status", FilterVal.str "todo")] ∧
    getDict [entA] [("id", FilterVal.other (Value.num 5))] = .error .typeError :=
  ⟨filter_value_normalization_and_typeerror.1 [entA] [("status", FilterVal.str "todo")],
   filter_value_normalization_and_typeerror.2 [entA] "id" (Value.num 5) [] (by decide)⟩

/-- Counterexample to C7 as stated: an integer-valued filter mapping on an
*empty* collection raises nothing — the validation sits inside the
per-entity loop, so the query silently returns an empty sequence. -/
theorem filter_int_value_no_error_on_empty :
    getDict [] [("status", FilterVal.other (Value.num 5))] = .ok (.entities []) := by decide

/-- C9: an empty filter mapping matches every entity (a conjunction over
zero fields): two or more elements come back as the whole collection in
order, a one-element collection yields its single entity unwrapped, and an
empty collection yields an empty sequence. -/
theorem empty_filter_matches_all :
    (∀ ml : List Entity, 2 ≤ ml.length → getDict ml [] = .ok (.entities ml)) ∧
    (∀ e : Entity, getDict [e] ([] : Filter) = .ok (.entity e)) ∧
    getDict ([] : List Entity) ([] : Filter) = .ok (.entities []) := by
  refine ⟨?_, ?_, rfl⟩
  · intro ml h2
    rw [getDict, dictFilter_nil]
    simp [Except.map, unwrapEntities_length_ne_one ml (by omega)]
  · intro e
    rfl

/-- Witness for C9: the empty mapping returns a two-element collection
whole and in order. -/
theorem empty_filter_matches_all_witness :
    getDict [entA, entB] [] = .ok (.entities [entA, entB]) :=
  empty_filter_matches_all.1 [entA, entB] (by decide)

end Trello
